import Mathlib

/-!
Shallow embedding of the WhatsApp integration layer of the `xtag` repository:
the configuration loader (`WhatsAppConfig.fromEnv`), the webhook repository
(`verifyWebhook`, `processWebhookPayload`, `registerEventHandler`,
`processMessages`, `processStatuses`), the HTTP client error path
(`WhatsAppHttpClient.post`), the message repository (`sendMessage`, in
particular the `messageToSend` spread that forces `messaging_product`),
and the media-message guard of `SendMessageUseCase.sendMediaMessage`.

JavaScript records are embedded as association lists of string fields
(`Obj`) with `getField` for property access; the JS truthiness test on an
optional string (`undefined` and `""` are falsy) is `truthy`; promises that
may reject are embedded as explicit success flags, and a function that can
throw returns `Except`.  Webhook handlers are identified by natural numbers;
their behaviour is a parameter `ok : Nat → Value → Bool` (`ok h v = false`
embeds handler `h` rejecting on input `v`).  The dispatcher returns the
list of handler invocations (which handler was called with which value,
in call order) together with the boolean that `processWebhookPayload`
resolves to.
-/

/-- A JavaScript record with string-valued fields, as an association list. -/
abbrev Obj := List (String × String)

/-- JS property access `o[k]` on an `Obj`: first field with the given name. -/
def getField : Obj → String → Option String
  | [], _ => none
  | (k2, v) :: rest, k => if k2 = k then some v else getField rest k

/-- JS truthiness of an optional string: `undefined` and `""` are falsy. -/
def truthy : Option String → Bool
  | none => false
  | some s => !s.isEmpty

/-- `src/infrastructure/config/whatsapp-config.ts`, class `WhatsAppConfig`:
the seven configuration fields (the last two have defaults). -/
structure WhatsAppConfig where
  businessAccountId : String
  phoneNumberId : String
  apiVersion : String
  accessToken : String
  webhookVerificationToken : String
  apiBaseUrl : String := "https://graph.facebook.com"
  defaultLanguageCode : String := "en_US"
deriving DecidableEq

/-- The process environment: variable name to value (absent = unset). -/
abbrev Env := List (String × String)

/-- The `requiredVars` list of `WhatsAppConfig.fromEnv`. -/
def requiredVars : List String :=
  ["WHATSAPP_BUSINESS_ACCOUNT_ID",
   "WHATSAPP_PHONE_NUMBER_ID",
   "WHATSAPP_API_VERSION",
   "WHATSAPP_ACCESS_TOKEN",
   "WHATSAPP_WEBHOOK_VERIFICATION_TOKEN"]

/-- JS `process.env[k] || d`: the variable's value if set and nonempty,
else the default `d`. -/
def envOr (e : Env) (k : String) (d : String) : String :=
  match getField e k with
  | some v => if v.isEmpty then d else v
  | none => d

/-- `WhatsAppConfig.fromEnv`: filters the required variables whose value is
falsy (`!process.env[varName]`), throws naming them when any, and otherwise
builds the config, defaulting `apiBaseUrl` and `defaultLanguageCode`.
A thrown `Error` is embedded as `Except.error` of its message. -/
def fromEnv (e : Env) : Except String WhatsAppConfig :=
  let missingVars := requiredVars.filter (fun v => !truthy (getField e v))
  if missingVars.isEmpty then
    Except.ok
      { businessAccountId := (getField e "WHATSAPP_BUSINESS_ACCOUNT_ID").getD ""
        phoneNumberId := (getField e "WHATSAPP_PHONE_NUMBER_ID").getD ""
        apiVersion := (getField e "WHATSAPP_API_VERSION").getD ""
        accessToken := (getField e "WHATSAPP_ACCESS_TOKEN").getD ""
        webhookVerificationToken :=
          (getField e "WHATSAPP_WEBHOOK_VERIFICATION_TOKEN").getD ""
        apiBaseUrl := envOr e "WHATSAPP_API_BASE_URL" "https://graph.facebook.com"
        defaultLanguageCode := envOr e "WHATSAPP_DEFAULT_LANGUAGE_CODE" "en_US" }
  else
    Except.error
      ("Missing required environment variables: " ++
        String.intercalate ", " missingVars)

/-- `WhatsAppWebhookRepository.verifyWebhook`: the challenge when the mode is
`'subscribe'` and the token matches the configured secret, `null` otherwise. -/
def verifyWebhook (config : WhatsAppConfig) (mode token challenge : String) :
    Option String :=
  if mode = "subscribe" ∧ token = config.webhookVerificationToken then
    some challenge
  else
    none

/-- The `value` level of a webhook change: its optional `messages` and
`statuses` arrays (absent versus present-but-empty is significant for the
JS truthiness tests in the dispatcher).  Array elements are abstracted as
naturals. -/
structure Value where
  messages : Option (List Nat)
  statuses : Option (List Nat)
deriving DecidableEq

/-- The `{}` record that `change?.value || {}` falls back to. -/
def emptyValue : Value := ⟨none, none⟩

/-- One element of an entry's `changes` array. -/
structure Change where
  field : String
  value : Option Value
deriving DecidableEq

/-- One element of the payload's `entry` array. -/
structure Entry where
  changes : Option (List Change)
deriving DecidableEq

/-- The inbound webhook payload: `{object, entry[].changes[].…}`. -/
structure Payload where
  object : String
  entry : Option (List Entry)
deriving DecidableEq

/-- The `eventHandlers` map: event-type string to the registered handler
ids (a missing key reads as `[]`, matching `… .get(t) || []`). -/
abbrev Registry := String → List Nat

/-- The repository's initial empty handler map. -/
def emptyRegistry : Registry := fun _ => []

/-- `WhatsAppWebhookRepository.registerEventHandler`: appends the handler
to the list for the event type, creating the list when absent. -/
def registerEventHandler (r : Registry) (eventType : String) (h : Nat) :
    Registry :=
  fun e => if e = eventType then r e ++ [h] else r e

/-- Registering each handler of `hs`, in order, for the `'message'` event
type, starting from the empty registry. -/
def registerAll (hs : List Nat) : Registry :=
  hs.foldl (fun r h => registerEventHandler r "message" h) emptyRegistry

/-- A recorded handler invocation: which handler, with which value. -/
abbrev Event := Nat × Value

/-- `WhatsAppWebhookRepository.processMessages`: returns early when the
`messages` array is empty, otherwise starts every `'message'` handler on the
value (`handlers.map`) and awaits them all (`Promise.all`): each handler is
invoked, and the batch succeeds exactly when every handler does. -/
def processMessages (r : Registry) (ok : Nat → Value → Bool) (v : Value) :
    List Event × Bool :=
  let messages := v.messages.getD []
  if messages.length = 0 then ([], true)
  else
    let handlers := r "message"
    (handlers.map (fun h => (h, v)), handlers.all (fun h => ok h v))

/-- `WhatsAppWebhookRepository.processStatuses`: as `processMessages`, for
the `statuses` array and the `'status'` handlers. -/
def processStatuses (r : Registry) (ok : Nat → Value → Bool) (v : Value) :
    List Event × Bool :=
  let statuses := v.statuses.getD []
  if statuses.length = 0 then ([], true)
  else
    let handlers := r "status"
    (handlers.map (fun h => (h, v)), handlers.all (fun h => ok h v))

/-- Sequencing of two awaited steps: if the first rejects, its exception
propagates and the second never runs; otherwise both invocation lists
happen in order and the outcome is the second's. -/
def seqResult (a b : List Event × Bool) : List Event × Bool :=
  if a.2 then (a.1 ++ b.1, b.2) else a

/-- The body of the inner dispatch loop for one change: skip unless the
change's `field` is `'messages'`; otherwise take `change?.value || {}`,
run `processMessages` when a `messages` array is present (any array is
truthy, even empty), and — only if that did not reject — run
`processStatuses` when a `statuses` array is present. -/
def processChange (r : Registry) (ok : Nat → Value → Bool) (c : Change) :
    List Event × Bool :=
  if c.field = "messages" then
    let value := c.value.getD emptyValue
    seqResult
      (if value.messages.isSome then processMessages r ok value else ([], true))
      (if value.statuses.isSome then processStatuses r ok value else ([], true))
  else ([], true)

/-- Sequential `for … await` over a list: each element is processed in turn
and a rejection aborts the loop (later elements are never started), as an
exception propagates out of the `for` loops into the `catch`. -/
def processList (f : α → List Event × Bool) : List α → List Event × Bool
  | [] => ([], true)
  | x :: xs => seqResult (f x) (processList f xs)

/-- The outer loop body: process each change of `entry?.changes || []`. -/
def processEntry (r : Registry) (ok : Nat → Value → Bool) (e : Entry) :
    List Event × Bool :=
  processList (processChange r ok) (e.changes.getD [])

/-- `WhatsAppWebhookRepository.processWebhookPayload`: returns `false` at
once unless `payload?.object` is `'whatsapp_business_account'`; otherwise
walks `payload?.entry || []`, dispatching each change; resolves `true` when
the walk completes and `false` when a handler rejection is caught. -/
def processWebhookPayload (r : Registry) (ok : Nat → Value → Bool)
    (p : Payload) : List Event × Bool :=
  if p.object = "whatsapp_business_account" then
    processList (processEntry r ok) (p.entry.getD [])
  else ([], false)

/-- All changes of a payload, in dispatch order. -/
def allChanges (p : Payload) : List Change :=
  (p.entry.getD []).flatMap (fun e => e.changes.getD [])

/-- Does the change's value carry a (truthy) non-empty `messages` array? -/
def hasNonEmptyMessages (c : Change) : Bool :=
  match (c.value.getD emptyValue).messages with
  | some l => !l.isEmpty
  | none => false

/-- The changes of a payload that trigger `'message'` handlers: field
`'messages'` and a non-empty `messages` array. -/
def messageChanges (p : Payload) : List Change :=
  (allChanges p).filter (fun c => c.field = "messages" && hasNonEmptyMessages c)

/-- The payload with every change whose `field` is not `'messages'`
removed. -/
def restrictToMessages (p : Payload) : Payload :=
  { p with
    entry := p.entry.map (fun es => es.map (fun e =>
      ⟨e.changes.map (fun cs => cs.filter (fun c => c.field = "messages"))⟩)) }

/-- The result of a `fetch`: the `ok`/`status`/`statusText` of the response,
and the JSON serialization of its parsed body (`"{}"` when parsing failed). -/
structure HttpResponse where
  ok : Bool
  status : Nat
  statusText : String
  bodyJson : String
deriving DecidableEq

/-- `WhatsAppHttpClient.post`, with the response the `fetch` produced as a
parameter: on a non-ok response it throws
`WhatsApp API error: <status> <statusText> - <JSON body>`, otherwise it
returns the parsed response body. -/
def post (resp : HttpResponse) : Except String String :=
  if resp.ok then Except.ok resp.bodyJson
  else
    Except.error
      ("WhatsApp API error: " ++ toString resp.status ++ " " ++
        resp.statusText ++ " - " ++ resp.bodyJson)

/-- JS spread-with-override `{...m, k: v}` on an `Obj`: replaces the value
of an existing field `k` in place, or appends the field when absent. -/
def setField (m : Obj) (k v : String) : Obj :=
  if m.any (fun kv => kv.1 = k) then
    m.map (fun kv => if kv.1 = k then (k, v) else kv)
  else m ++ [(k, v)]

/-- The `messageToSend` of `WhatsAppMessageRepository.sendMessage`:
`{...message, messaging_product: 'whatsapp'}`. -/
def messageToSend (message : Obj) : Obj :=
  setField message "messaging_product" "whatsapp"

/-- `WhatsAppMessageRepository.sendMessage`: one POST of `messageToSend`
to `<phoneNumberId>/messages`; the outcome is that of `post`. -/
def sendMessage (config : WhatsAppConfig) (message : Obj)
    (resp : HttpResponse) : (String × Obj) × Except String String :=
  ((config.phoneNumberId ++ "/messages", messageToSend message), post resp)

/-- `SendMediaMessageParams` of the send-message use case.  The source
field `to` is named `toPhone` here (`to` is reserved in Lean). -/
structure SendMediaMessageParams where
  toPhone : String
  mediaType : String
  mediaId : Option String := none
  mediaUrl : Option String := none
  caption : Option String := none
  filename : Option String := none
  replyToMessageId : Option String := none
deriving DecidableEq

/-- The `mediaContent` record of `sendMediaMessage`: each field is spread
in only when the corresponding parameter is truthy. -/
def mediaContent (params : SendMediaMessageParams) : List (String × String) :=
  (if truthy params.mediaId then [("id", params.mediaId.getD "")] else []) ++
  (if truthy params.mediaUrl then [("link", params.mediaUrl.getD "")] else []) ++
  (if truthy params.caption then [("caption", params.caption.getD "")] else []) ++
  (if truthy params.filename then [("filename", params.filename.getD "")] else [])

/-- The message `sendMediaMessage` hands to the repository. -/
structure MediaMessage where
  messaging_product : String
  recipient_type : String
  toPhone : String
  type : String
  media : List (String × String)
  context : Option String
deriving DecidableEq

/-- `SendMessageUseCase.sendMediaMessage`: throws unless `mediaId` or
`mediaUrl` is truthy, otherwise builds the media message and calls
`messageRepository.sendMessage` with it.  `Except.ok m` embeds that single
repository call with message `m`; `Except.error` embeds the throw, before
any repository call. -/
def sendMediaMessage (params : SendMediaMessageParams) :
    Except String MediaMessage :=
  if !truthy params.mediaId && !truthy params.mediaUrl then
    Except.error "Either mediaId or mediaUrl must be provided"
  else
    Except.ok
      { messaging_product := "whatsapp"
        recipient_type := "individual"
        toPhone := params.toPhone
        type := params.mediaType
        media := mediaContent params
        context :=
          if truthy params.replyToMessageId then params.replyToMessageId
          else none }

/-! ### Concrete inputs used by witnesses and counterexamples -/

/-- A change value with one message and no statuses. -/
def valA : Value := ⟨some [1], none⟩

/-- A second, distinct change value with one message. -/
def valB : Value := ⟨some [2], none⟩

/-- A message-bearing change carrying `valA`. -/
def changeA : Change := ⟨"messages", some valA⟩

/-- A message-bearing change carrying `valB`. -/
def changeB : Change := ⟨"messages", some valB⟩

/-- A valid payload with a single message-bearing change. -/
def payloadOneChange : Payload :=
  ⟨"whatsapp_business_account", some [⟨some [changeA]⟩]⟩

/-- A valid payload whose single entry has two message-bearing changes. -/
def payloadTwoChanges : Payload :=
  ⟨"whatsapp_business_account", some [⟨some [changeA, changeB]⟩]⟩

/-- Handler behaviour where every handler invocation rejects. -/
def okRejectAll : Nat → Value → Bool := fun _ _ => false

/-- Handler behaviour where every handler invocation fulfils. -/
def okAcceptAll : Nat → Value → Bool := fun _ _ => true

/-! ### Association-list field lookup lemmas -/

theorem getField_append_of_none (m1 m2 : Obj) (k : String)
    (h : getField m1 k = none) : getField (m1 ++ m2) k = getField m2 k := by
  induction m1 with
  | nil => rfl
  | cons kv rest ih =>
    obtain ⟨a, b⟩ := kv
    by_cases hak : a = k
    · simp [getField, hak] at h
    · simp only [List.cons_append, getField, if_neg hak] at h ⊢
      exact ih h

theorem getField_append_of_some (m1 m2 : Obj) (k v : String)
    (h : getField m1 k = some v) : getField (m1 ++ m2) k = some v := by
  induction m1 with
  | nil => simp [getField] at h
  | cons kv rest ih =>
    obtain ⟨a, b⟩ := kv
    by_cases hak : a = k
    · simp only [getField, if_pos hak] at h
      simp only [List.cons_append, getField, if_pos hak]
      exact h
    · simp only [List.cons_append, getField, if_neg hak] at h ⊢
      exact ih h

theorem getField_eq_none_of_any_false (m : Obj) (k : String)
    (h : m.any (fun kv => kv.1 = k) = false) : getField m k = none := by
  induction m with
  | nil => rfl
  | cons kv rest ih =>
    obtain ⟨a, b⟩ := kv
    simp only [List.any_cons, Bool.or_eq_false_iff] at h
    obtain ⟨h1, h2⟩ := h
    have hak : a ≠ k := by simpa using h1
    simp only [getField, if_neg hak]
    exact ih h2

theorem getField_cons (a b k : String) (rest : Obj) :
    getField ((a, b) :: rest) k = if a = k then some b else getField rest k :=
  rfl

theorem map_set_cons (a b k w : String) (rest : Obj) :
    ((a, b) :: rest).map (fun kv => if kv.1 = k then (k, w) else kv) =
      (if a = k then (k, w) else (a, b)) ::
        rest.map (fun kv => if kv.1 = k then (k, w) else kv) :=
  rfl

theorem getField_map_set_self (m : Obj) (k w : String)
    (h : m.any (fun kv => kv.1 = k) = true) :
    getField (m.map (fun kv => if kv.1 = k then (k, w) else kv)) k = some w := by
  induction m with
  | nil => simp at h
  | cons kv rest ih =>
    obtain ⟨a, b⟩ := kv
    rw [map_set_cons]
    by_cases hak : a = k
    · rw [if_pos hak, getField_cons, if_pos rfl]
    · rw [if_neg hak, getField_cons, if_neg hak]
      apply ih
      simp only [List.any_cons, Bool.or_eq_true] at h
      rcases h with h1 | h2
      · exact absurd (by simpa using h1) hak
      · exact h2

theorem getField_map_set_other (m : Obj) (k w k2 : String) (h : k2 ≠ k) :
    getField (m.map (fun kv => if kv.1 = k then (k, w) else kv)) k2 =
      getField m k2 := by
  induction m with
  | nil => rfl
  | cons kv rest ih =>
    obtain ⟨a, b⟩ := kv
    rw [map_set_cons]
    by_cases hak : a = k
    · have hkk2 : ¬(k = k2) := fun hh => h hh.symm
      have hak2 : ¬(a = k2) := by rw [hak]; exact hkk2
      rw [if_pos hak, getField_cons, getField_cons, if_neg hkk2, if_neg hak2]
      exact ih
    · rw [if_neg hak, getField_cons, getField_cons]
      by_cases hak2 : a = k2
      · rw [if_pos hak2, if_pos hak2]
      · rw [if_neg hak2, if_neg hak2]
        exact ih

/-- C1: `verifyWebhook` returns the challenge unchanged exactly when the
mode is the literal `'subscribe'` and the token equals the configured
`webhookVerificationToken`; in every other combination it returns null. -/
theorem verifyWebhook_challenge_iff (config : WhatsAppConfig)
    (mode token challenge : String) :
    (verifyWebhook config mode token challenge = some challenge ↔
      mode = "subscribe" ∧ token = config.webhookVerificationToken) ∧
    (verifyWebhook config mode token challenge = none ↔
      ¬(mode = "subscribe" ∧ token = config.webhookVerificationToken)) := by
  unfold verifyWebhook
  split_ifs with h <;> simp [h]

/-- C3: the body `sendMessage` hands to the HTTP POST is the input message
with `messaging_product` forced to the literal `'whatsapp'` (also when the
field was absent or carried a different value), every other field kept
unchanged. -/
theorem messageToSend_forces_messaging_product (message : Obj) :
    getField (messageToSend message) "messaging_product" = some "whatsapp" ∧
    ∀ k, k ≠ "messaging_product" →
      getField (messageToSend message) k = getField message k := by
  constructor
  · unfold messageToSend setField
    split_ifs with h
    · exact getField_map_set_self _ _ _ h
    · have h0 : getField message "messaging_product" = none :=
        getField_eq_none_of_any_false _ _
          (by rw [Bool.not_eq_true] at h; exact h)
      rw [getField_append_of_none _ _ _ h0]
      simp [getField]
  · intro k hk
    unfold messageToSend setField
    split_ifs with h
    · exact getField_map_set_other _ _ _ _ hk
    · cases hv : getField message k with
      | none =>
        rw [getField_append_of_none _ _ _ hv]
        have : "messaging_product" ≠ k := fun hh => hk hh.symm
        simp [getField, this]
      | some v => rw [getField_append_of_some _ _ _ _ hv]

/-- Witness for C3 at a concrete message whose `messaging_product` field
carries a wrong value: it is overwritten and the `to` field is kept. -/
theorem messageToSend_forces_messaging_product_witness :
    getField (messageToSend
        [("to", "+123"), ("messaging_product", "junk"), ("type", "text")])
      "messaging_product" = some "whatsapp" ∧
    getField (messageToSend
        [("to", "+123"), ("messaging_product", "junk"), ("type", "text")])
      "to" =
      getField [("to", "+123"), ("messaging_product", "junk"), ("type", "text")]
        "to" :=
  ⟨(messageToSend_forces_messaging_product _).1,
   (messageToSend_forces_messaging_product _).2 "to" (by decide)⟩

/-- C5: a non-ok HTTP response makes `post` (and hence `sendMessage`) throw
rather than return; the error message embeds the numeric status code, the
status text and the serialized response body. -/
theorem post_error_embeds_status (config : WhatsAppConfig) (message : Obj)
    (resp : HttpResponse) (h : resp.ok = false) :
    ∃ msg, post resp = Except.error msg ∧
      (sendMessage config message resp).2 = Except.error msg ∧
      (∃ a b, msg = a ++ toString resp.status ++ b) ∧
      (∃ a b, msg = a ++ resp.statusText ++ b) ∧
      (∃ a b, msg = a ++ resp.bodyJson ++ b) := by
  refine ⟨"WhatsApp API error: " ++ toString resp.status ++ " " ++
      resp.statusText ++ " - " ++ resp.bodyJson, ?_, ?_, ?_, ?_, ?_⟩
  · simp [post, h]
  · simp [sendMessage, post, h]
  · exact ⟨"WhatsApp API error: ",
      " " ++ resp.statusText ++ " - " ++ resp.bodyJson,
      by simp [String.append_assoc]⟩
  · exact ⟨"WhatsApp API error: " ++ toString resp.status ++ " ",
      " - " ++ resp.bodyJson, by simp [String.append_assoc]⟩
  · exact ⟨"WhatsApp API error: " ++ toString resp.status ++ " " ++
      resp.statusText ++ " - ", "", by simp [String.append_assoc, String.append_empty]⟩

/-- Witness for C5 at a concrete 500 response. -/
theorem post_error_embeds_status_witness :
    (HttpResponse.mk false 500 "Internal Server Error" "\x7b\x7d").ok = false ∧
    ∃ msg,
      post (HttpResponse.mk false 500 "Internal Server Error" "\x7b\x7d") =
        Except.error msg ∧
      (sendMessage ⟨"b", "p", "v", "a", "w", "u", "l"⟩ []
          (HttpResponse.mk false 500 "Internal Server Error" "\x7b\x7d")).2 =
        Except.error msg ∧
      (∃ a b, msg = a ++ toString
        (HttpResponse.mk false 500 "Internal Server Error" "\x7b\x7d").status ++ b) ∧
      (∃ a b, msg = a ++
        (HttpResponse.mk false 500 "Internal Server Error" "\x7b\x7d").statusText ++ b) ∧
      (∃ a b, msg = a ++
        (HttpResponse.mk false 500 "Internal Server Error" "\x7b\x7d").bodyJson ++ b) :=
  ⟨rfl, post_error_embeds_status ⟨"b", "p", "v", "a", "w", "u", "l"⟩ []
    (HttpResponse.mk false 500 "Internal Server Error" "\x7b\x7d") rfl⟩

/-- C7: a payload whose top-level `object` is not
`'whatsapp_business_account'` is rejected: result `false`, no throw, and no
handler invocation. -/
theorem processWebhookPayload_rejects_wrong_object (r : Registry)
    (ok : Nat → Value → Bool) (p : Payload)
    (h : p.object ≠ "whatsapp_business_account") :
    processWebhookPayload r ok p = ([], false) := by
  simp [processWebhookPayload, h]

/-- Witness for C7 at a concrete payload that does carry message-bearing
changes and a registered handler, but the wrong top-level object. -/
theorem processWebhookPayload_rejects_wrong_object_witness :
    (Payload.mk "page" (some [⟨some [changeA]⟩])).object ≠
      "whatsapp_business_account" ∧
    processWebhookPayload (registerAll [0]) okAcceptAll
      (Payload.mk "page" (some [⟨some [changeA]⟩])) = ([], false) :=
  ⟨by decide,
   processWebhookPayload_rejects_wrong_object _ _ _ (by decide)⟩

/-- C9: `sendMediaMessage` with neither `mediaId` nor `mediaUrl` throws
`Either mediaId or mediaUrl must be provided`; the `Except.error` result
embeds that the repository `sendMessage` is never reached. -/
theorem sendMediaMessage_requires_media (params : SendMediaMessageParams)
    (h1 : params.mediaId = none) (h2 : params.mediaUrl = none) :
    sendMediaMessage params =
      Except.error "Either mediaId or mediaUrl must be provided" := by
  simp [sendMediaMessage, h1, h2, truthy]

/-- Witness for C9 at a concrete parameter record with no media source. -/
theorem sendMediaMessage_requires_media_witness :
    (SendMediaMessageParams.mk "+123" "image" none none none none none).mediaId
      = none ∧
    (SendMediaMessageParams.mk "+123" "image" none none none none none).mediaUrl
      = none ∧
    sendMediaMessage
        (SendMediaMessageParams.mk "+123" "image" none none none none none) =
      Except.error "Either mediaId or mediaUrl must be provided" :=
  ⟨rfl, rfl, sendMediaMessage_requires_media _ rfl rfl⟩

/-! ### Soundness of the dispatch flag: `true` only when every invoked
handler fulfilled -/

theorem processMessages_sound (r : Registry) (ok : Nat → Value → Bool)
    (v : Value) (hflag : (processMessages r ok v).2 = true) :
    ∀ e ∈ (processMessages r ok v).1, ok e.1 e.2 = true := by
  by_cases h : (v.messages.getD []).length = 0
  · intro e he
    have h1 : (processMessages r ok v).1 = [] := by simp [processMessages, h]
    rw [h1] at he
    simp at he
  · have h1 : (processMessages r ok v).1 =
        (r "message").map (fun h2 => (h2, v)) := by simp [processMessages, h]
    have h2 : (processMessages r ok v).2 =
        (r "message").all (fun h2 => ok h2 v) := by simp [processMessages, h]
    rw [h2] at hflag
    rw [h1]
    intro e he
    simp only [List.mem_map] at he
    obtain ⟨a, ha, rfl⟩ := he
    simp only [List.all_eq_true] at hflag
    exact hflag a ha

theorem processStatuses_sound (r : Registry) (ok : Nat → Value → Bool)
    (v : Value) (hflag : (processStatuses r ok v).2 = true) :
    ∀ e ∈ (processStatuses r ok v).1, ok e.1 e.2 = true := by
  by_cases h : (v.statuses.getD []).length = 0
  · intro e he
    have h1 : (processStatuses r ok v).1 = [] := by simp [processStatuses, h]
    rw [h1] at he
    simp at he
  · have h1 : (processStatuses r ok v).1 =
        (r "status").map (fun h2 => (h2, v)) := by simp [processStatuses, h]
    have h2 : (processStatuses r ok v).2 =
        (r "status").all (fun h2 => ok h2 v) := by simp [processStatuses, h]
    rw [h2] at hflag
    rw [h1]
    intro e he
    simp only [List.mem_map] at he
    obtain ⟨a, ha, rfl⟩ := he
    simp only [List.all_eq_true] at hflag
    exact hflag a ha

theorem seqResult_sound {P : Event → Prop} (a b : List Event × Bool)
    (ha : a.2 = true → ∀ e ∈ a.1, P e) (hb : b.2 = true → ∀ e ∈ b.1, P e)
    (hflag : (seqResult a b).2 = true) : ∀ e ∈ (seqResult a b).1, P e := by
  unfold seqResult at hflag ⊢
  by_cases h2 : a.2 = true
  · rw [if_pos h2] at hflag ⊢
    intro e he
    simp only [List.mem_append] at he
    rcases he with he | he
    · exact ha h2 e he
    · exact hb hflag e he
  · rw [if_neg h2] at hflag
    exact absurd hflag h2

theorem processChange_sound (r : Registry) (ok : Nat → Value → Bool)
    (c : Change) (hflag : (processChange r ok c).2 = true) :
    ∀ e ∈ (processChange r ok c).1, ok e.1 e.2 = true := by
  by_cases hf : c.field = "messages"
  · have hc : processChange r ok c =
        seqResult
          (if (c.value.getD emptyValue).messages.isSome
            then processMessages r ok (c.value.getD emptyValue) else ([], true))
          (if (c.value.getD emptyValue).statuses.isSome
            then processStatuses r ok (c.value.getD emptyValue) else ([], true)) := by
      simp [processChange, hf]
    rw [hc] at hflag ⊢
    refine seqResult_sound _ _ ?_ ?_ hflag
    · intro h1 e he
      by_cases hm : (c.value.getD emptyValue).messages.isSome
      · rw [if_pos hm] at h1 he
        exact processMessages_sound _ _ _ h1 e he
      · rw [if_neg hm] at he
        simp at he
    · intro h1 e he
      by_cases hm : (c.value.getD emptyValue).statuses.isSome
      · rw [if_pos hm] at h1 he
        exact processStatuses_sound _ _ _ h1 e he
      · rw [if_neg hm] at he
        simp at he
  · have hc : processChange r ok c = ([], true) := by simp [processChange, hf]
    rw [hc]
    intro e he
    simp at he

theorem processList_sound {α : Type} {P : Event → Prop}
    (f : α → List Event × Bool) (l : List α)
    (hf : ∀ x ∈ l, (f x).2 = true → ∀ e ∈ (f x).1, P e)
    (hflag : (processList f l).2 = true) : ∀ e ∈ (processList f l).1, P e := by
  induction l with
  | nil =>
    intro e he
    simp [processList] at he
  | cons x xs ih =>
    exact seqResult_sound (f x) (processList f xs)
      (hf x (List.mem_cons_self x xs))
      (fun hfl => ih (fun y hy => hf y (List.mem_cons_of_mem x hy)) hfl)
      hflag

theorem processWebhookPayload_sound (r : Registry) (ok : Nat → Value → Bool)
    (p : Payload) (hflag : (processWebhookPayload r ok p).2 = true) :
    ∀ e ∈ (processWebhookPayload r ok p).1, ok e.1 e.2 = true := by
  unfold processWebhookPayload at hflag ⊢
  by_cases hobj : p.object = "whatsapp_business_account"
  · rw [if_pos hobj] at hflag ⊢
    refine processList_sound _ _ ?_ hflag
    intro en _ hfl
    exact processList_sound _ _ (fun c _ => processChange_sound r ok c) hfl
  · rw [if_neg hobj] at hflag
    simp at hflag

/-- C2: when any invoked handler rejects, `processWebhookPayload` catches
the rejection and resolves `false` (a plain boolean, with no
partial-success information) instead of throwing. -/
theorem processWebhookPayload_false_of_handler_throw (r : Registry)
    (ok : Nat → Value → Bool) (p : Payload) (e : Event)
    (he : e ∈ (processWebhookPayload r ok p).1) (hfail : ok e.1 e.2 = false) :
    (processWebhookPayload r ok p).2 = false := by
  cases hflag : (processWebhookPayload r ok p).2 with
  | false => rfl
  | true =>
    have h := processWebhookPayload_sound r ok p hflag e he
    rw [hfail] at h
    exact Bool.noConfusion h

/-- Witness for C2: one registered handler that rejects on the only
message-bearing change; the dispatcher reports `false`. -/
theorem processWebhookPayload_false_of_handler_throw_witness :
    (0, valA) ∈ (processWebhookPayload (registerAll [0]) okRejectAll
      payloadOneChange).1 ∧
    okRejectAll 0 valA = false ∧
    (processWebhookPayload (registerAll [0]) okRejectAll
      payloadOneChange).2 = false :=
  ⟨by decide, rfl,
   processWebhookPayload_false_of_handler_throw _ _ _ (0, valA) (by decide) rfl⟩

/-! ### Payloads with nothing to dispatch -/

theorem processList_neutral {α : Type} (f : α → List Event × Bool)
    (l : List α) (h : ∀ x ∈ l, f x = ([], true)) :
    processList f l = ([], true) := by
  induction l with
  | nil => rfl
  | cons x xs ih =>
    show seqResult (f x) (processList f xs) = ([], true)
    rw [h x (List.mem_cons_self x xs),
      ih (fun y hy => h y (List.mem_cons_of_mem x hy))]
    rfl

/-- C10: a payload with the right top-level object in which no
`'messages'`-field change carries a non-empty `messages` or `statuses`
array (missing entry array, missing value, absent or empty arrays all
included) makes `processWebhookPayload` resolve `true` with no handler
invocation at all. -/
theorem processWebhookPayload_true_of_no_events (r : Registry)
    (ok : Nat → Value → Bool) (p : Payload)
    (hobj : p.object = "whatsapp_business_account")
    (hch : ∀ c ∈ allChanges p, c.field = "messages" →
      (c.value.getD emptyValue).messages.getD [] = [] ∧
      (c.value.getD emptyValue).statuses.getD [] = []) :
    processWebhookPayload r ok p = ([], true) := by
  unfold processWebhookPayload
  rw [if_pos hobj]
  apply processList_neutral
  intro en hen
  unfold processEntry
  apply processList_neutral
  intro c hc
  have hmem : c ∈ allChanges p := by
    unfold allChanges
    exact List.mem_flatMap.mpr ⟨en, hen, hc⟩
  by_cases hf : c.field = "messages"
  · obtain ⟨hm, hs⟩ := hch c hmem hf
    have e1 : (if (c.value.getD emptyValue).messages.isSome
        then processMessages r ok (c.value.getD emptyValue)
        else ([], true)) = ([], true) := by
      split_ifs with h1
      · simp [processMessages, hm]
      · rfl
    have e2 : (if (c.value.getD emptyValue).statuses.isSome
        then processStatuses r ok (c.value.getD emptyValue)
        else ([], true)) = ([], true) := by
      split_ifs with h1
      · simp [processStatuses, hs]
      · rfl
    simp [processChange, hf, e1, e2, seqResult]
  · simp [processChange, hf]

/-- A valid payload exercising all the quiet cases of C10: an entry with a
missing changes array, a non-`'messages'` change with data, a
`'messages'` change with an empty messages array, and a `'messages'`
change with no value at all. -/
def payloadNoEvents : Payload :=
  ⟨"whatsapp_business_account",
   some [⟨none⟩,
         ⟨some [⟨"other", some ⟨some [5], some [6]⟩⟩,
                ⟨"messages", some ⟨some [], none⟩⟩,
                ⟨"messages", none⟩]⟩]⟩

/-- Witness for C10 at `payloadNoEvents` with two registered handlers. -/
theorem processWebhookPayload_true_of_no_events_witness :
    payloadNoEvents.object = "whatsapp_business_account" ∧
    (∀ c ∈ allChanges payloadNoEvents, c.field = "messages" →
      (c.value.getD emptyValue).messages.getD [] = [] ∧
      (c.value.getD emptyValue).statuses.getD [] = []) ∧
    processWebhookPayload (registerAll [0, 1]) okRejectAll payloadNoEvents =
      ([], true) :=
  ⟨rfl, by decide,
   processWebhookPayload_true_of_no_events _ _ _ rfl (by decide)⟩

/-! ### Non-`'messages'` changes contribute nothing -/

theorem processList_filter {α : Type} (f : α → List Event × Bool)
    (pred : α → Bool) (l : List α)
    (h : ∀ x, pred x = false → f x = ([], true)) :
    processList f (l.filter pred) = processList f l := by
  induction l with
  | nil => rfl
  | cons x xs ih =>
    by_cases hp : pred x = true
    · rw [List.filter_cons_of_pos hp]
      show seqResult (f x) (processList f (xs.filter pred)) =
        seqResult (f x) (processList f xs)
      rw [ih]
    · have hpf : pred x = false := by
        rw [Bool.not_eq_true] at hp
        exact hp
      rw [List.filter_cons_of_neg hp, ih]
      show processList f xs = seqResult (f x) (processList f xs)
      rw [h x hpf]
      simp [seqResult]

theorem processEntry_filter (r : Registry) (ok : Nat → Value → Bool)
    (e : Entry) :
    processEntry r ok
      ⟨e.changes.map (fun cs => cs.filter (fun c => c.field = "messages"))⟩ =
      processEntry r ok e := by
  unfold processEntry
  cases hc : e.changes with
  | none => rfl
  | some cs =>
    show processList (processChange r ok)
        (cs.filter (fun c => c.field = "messages")) =
      processList (processChange r ok) cs
    apply processList_filter
    intro c hcf
    have hne : ¬(c.field = "messages") := of_decide_eq_false hcf
    simp [processChange, hne]

theorem processList_entries_filter (r : Registry) (ok : Nat → Value → Bool)
    (es : List Entry) :
    processList (processEntry r ok)
      (es.map (fun e =>
        ⟨e.changes.map (fun cs => cs.filter (fun c => c.field = "messages"))⟩)) =
      processList (processEntry r ok) es := by
  induction es with
  | nil => rfl
  | cons e rest ih =>
    rw [List.map_cons]
    show seqResult _ _ = seqResult _ _
    rw [processEntry_filter, ih]

/-- C6: the dispatch outcome (both the handler invocations and the
resolved boolean) is unchanged when every change whose `field` is not
`'messages'` is deleted from the payload: such changes contribute no
`'message'` or `'status'` handler invocation. -/
theorem processWebhookPayload_ignores_non_message_changes (r : Registry)
    (ok : Nat → Value → Bool) (p : Payload) :
    processWebhookPayload r ok (restrictToMessages p) =
      processWebhookPayload r ok p := by
  have hent : (restrictToMessages p).entry =
      p.entry.map (fun es => es.map (fun e =>
        ⟨e.changes.map (fun cs => cs.filter (fun c => c.field = "messages"))⟩)) :=
    rfl
  unfold processWebhookPayload
  rw [show (restrictToMessages p).object = p.object from rfl, hent]
  by_cases h : p.object = "whatsapp_business_account"
  · rw [if_pos h, if_pos h]
    cases p.entry with
    | none => rfl
    | some es => exact processList_entries_filter r ok es
  · rw [if_neg h, if_neg h]

/-! ### Fan-out to all registered `'message'` handlers -/

theorem registerAll_foldl (hs : List Nat) (r : Registry) (e : String) :
    (hs.foldl (fun r2 h => registerEventHandler r2 "message" h) r) e =
      if e = "message" then r e ++ hs else r e := by
  induction hs generalizing r with
  | nil =>
    show r e = _
    split_ifs <;> simp
  | cons h t ih =>
    show (t.foldl _ (registerEventHandler r "message" h)) e = _
    rw [ih]
    unfold registerEventHandler
    split_ifs with he
    · simp
    · rfl

theorem registerAll_message (hs : List Nat) :
    registerAll hs "message" = hs := by
  unfold registerAll
  rw [registerAll_foldl]
  simp [emptyRegistry]

theorem registerAll_status (hs : List Nat) :
    registerAll hs "status" = [] := by
  unfold registerAll
  rw [registerAll_foldl]
  rw [if_neg (by decide)]
  rfl

theorem processList_all_ok {α : Type} (f : α → List Event × Bool)
    (l : List α) (h : ∀ x ∈ l, (f x).2 = true) :
    processList f l = (l.flatMap (fun x => (f x).1), true) := by
  induction l with
  | nil => rfl
  | cons x xs ih =>
    show seqResult (f x) (processList f xs) = _
    rw [ih (fun y hy => h y (List.mem_cons_of_mem x hy))]
    unfold seqResult
    rw [if_pos (h x (List.mem_cons_self x xs))]
    simp

theorem processChange_all_ok (r : Registry) (ok : Nat → Value → Bool)
    (hok : ∀ h v, ok h v = true) (hstat : r "status" = []) (c : Change) :
    processChange r ok c =
      ((if c.field = "messages" && hasNonEmptyMessages c
        then (r "message").map (fun h => (h, c.value.getD emptyValue))
        else []),
       true) := by
  by_cases hf : c.field = "messages"
  · have s2 : (if (c.value.getD emptyValue).statuses.isSome
        then processStatuses r ok (c.value.getD emptyValue)
        else ([], true)) = ([], true) := by
      split_ifs with h1
      · simp [processStatuses, hstat]
      · rfl
    have hall : (r "message").all
        (fun h => ok h (c.value.getD emptyValue)) = true := by
      simp [List.all_eq_true, hok]
    cases hmsg : (c.value.getD emptyValue).messages with
    | none =>
      have hne : hasNonEmptyMessages c = false := by
        simp [hasNonEmptyMessages, hmsg]
      simp [processChange, hf, hmsg, s2, seqResult, hne]
    | some l =>
      cases l with
      | nil =>
        have hne : hasNonEmptyMessages c = false := by
          simp [hasNonEmptyMessages, hmsg]
        simp [processChange, hf, hmsg, processMessages, s2, seqResult, hne]
      | cons m ms =>
        have hne : hasNonEmptyMessages c = true := by
          simp [hasNonEmptyMessages, hmsg]
        simp [processChange, hf, hmsg, processMessages, s2, seqResult, hne,
          hall]
  · have hcond : (c.field = "messages" && hasNonEmptyMessages c) = false := by
      simp [hf]
    simp [processChange, hf, hcond]

theorem flatMap_if_filter {α β : Type} (l : List α) (pred : α → Bool)
    (g : α → List β) :
    l.flatMap (fun c => if pred c then g c else []) =
      (l.filter pred).flatMap g := by
  induction l with
  | nil => rfl
  | cons x xs ih =>
    rw [List.flatMap_cons]
    by_cases hp : pred x = true
    · rw [if_pos hp, List.filter_cons_of_pos hp, List.flatMap_cons, ih]
    · rw [if_neg hp, List.filter_cons_of_neg hp, ih]
      simp

/-- Number of occurrences of one invocation in an invocation list. -/
def countEvent (e : Event) (l : List Event) : Nat :=
  (l.filter (fun x => x = e)).length

theorem countEvent_cons (e x : Event) (l : List Event) :
    countEvent e (x :: l) =
      if x = e then countEvent e l + 1 else countEvent e l := by
  unfold countEvent
  by_cases hx : x = e
  · rw [List.filter_cons_of_pos (by simp [hx]), if_pos hx]
    rfl
  · rw [List.filter_cons_of_neg (by simp [hx]), if_neg hx]

theorem countEvent_eq_zero (e : Event) (l : List Event)
    (h : ∀ x ∈ l, ¬(x = e)) : countEvent e l = 0 := by
  unfold countEvent
  have hnil : l.filter (fun x => x = e) = [] := by
    rw [List.filter_eq_nil_iff]
    intro a ha
    simp [h a ha]
  rw [hnil]
  rfl

theorem countEvent_nodup_map (hs : List Nat) (hnd : hs.Nodup) (h : Nat)
    (hh : h ∈ hs) (v : Value) :
    countEvent (h, v) (hs.map (fun h2 => (h2, v))) = 1 := by
  induction hs with
  | nil => cases hh
  | cons a t ih =>
    rw [List.map_cons, countEvent_cons]
    by_cases hah : a = h
    · subst hah
      rw [if_pos rfl]
      have hzero : countEvent (a, v) (t.map (fun h2 => (h2, v))) = 0 := by
        apply countEvent_eq_zero
        intro x hx
        simp only [List.mem_map] at hx
        obtain ⟨b, hb, rfl⟩ := hx
        intro heq
        have hba : b = a := congrArg Prod.fst heq
        exact (List.nodup_cons.mp hnd).1 (hba ▸ hb)
      rw [hzero]
    · rw [if_neg (fun heq => hah (congrArg Prod.fst heq))]
      have hmem : h ∈ t := by
        rcases List.mem_cons.mp hh with h1 | h2
        · exact absurd h1.symm hah
        · exact h2
      exact ih (List.nodup_cons.mp hnd).2 hmem

/-- C4 (amended): with N distinct handlers registered for `'message'` (and
none for `'status'`), and no invoked handler rejecting, the invocations of
a valid payload are exactly one block per message-bearing change, and
within a block each registered handler appears exactly once, paired with
that change's value object. -/
theorem message_handlers_each_invoked_once (hs : List Nat) (hnd : hs.Nodup)
    (ok : Nat → Value → Bool) (hok : ∀ h v, ok h v = true) (p : Payload)
    (hobj : p.object = "whatsapp_business_account") :
    (processWebhookPayload (registerAll hs) ok p).1 =
      (messageChanges p).flatMap
        (fun c => hs.map (fun h => (h, c.value.getD emptyValue))) ∧
    ∀ c ∈ messageChanges p, ∀ h ∈ hs,
      countEvent (h, c.value.getD emptyValue)
        (hs.map (fun h2 => (h2, c.value.getD emptyValue))) = 1 := by
  constructor
  · have hch : ∀ c, processChange (registerAll hs) ok c =
        ((if c.field = "messages" && hasNonEmptyMessages c
          then hs.map (fun h => (h, c.value.getD emptyValue))
          else []),
         true) := by
      intro c
      rw [processChange_all_ok (registerAll hs) ok hok (registerAll_status hs)
        c, registerAll_message hs]
    have hent : ∀ en, processEntry (registerAll hs) ok en =
        ((en.changes.getD []).flatMap (fun c =>
          if c.field = "messages" && hasNonEmptyMessages c
          then hs.map (fun h => (h, c.value.getD emptyValue))
          else []),
         true) := by
      intro en
      unfold processEntry
      rw [processList_all_ok _ _ (fun c _ => by rw [hch c])]
      congr 1
      apply List.flatMap_congr
      intro c _
      rw [hch c]
    unfold processWebhookPayload
    rw [if_pos hobj,
      processList_all_ok _ _ (fun en _ => by rw [hent en])]
    show (p.entry.getD []).flatMap
        (fun en => (processEntry (registerAll hs) ok en).1) = _
    have hev : ∀ en, (processEntry (registerAll hs) ok en).1 =
        (en.changes.getD []).flatMap (fun c =>
          if c.field = "messages" && hasNonEmptyMessages c
          then hs.map (fun h => (h, c.value.getD emptyValue))
          else []) := by
      intro en
      rw [hent en]
    rw [List.flatMap_congr (fun en _ => hev en), ← List.flatMap_assoc,
      flatMap_if_filter]
    rfl
  · intro c _ h hh
    exact countEvent_nodup_map hs hnd h hh (c.value.getD emptyValue)

/-- Witness for the amended C4: two distinct handlers, a single
message-bearing change, all handlers fulfilling. -/
theorem message_handlers_each_invoked_once_witness :
    (processWebhookPayload (registerAll [0, 1]) okAcceptAll
        payloadOneChange).1 =
      (messageChanges payloadOneChange).flatMap
        (fun c => [0, 1].map (fun h => (h, c.value.getD emptyValue))) ∧
    countEvent (0, changeA.value.getD emptyValue)
      ([0, 1].map (fun h2 => (h2, changeA.value.getD emptyValue))) = 1 := by
  have h := message_handlers_each_invoked_once [0, 1] (by decide) okAcceptAll
    (fun _ _ => rfl) payloadOneChange rfl
  exact ⟨h.1, h.2 changeA (by decide) 0 (by decide)⟩

/-- Counterexample to C4 as stated: with one registered handler that
rejects, a payload containing two message-bearing changes dispatches the
first change (the handler is invoked once there), aborts, and the handler
is never invoked for the second change — zero invocations instead of
exactly one. -/
theorem message_handlers_second_change_skipped :
    payloadTwoChanges.object = "whatsapp_business_account" ∧
    changeB ∈ allChanges payloadTwoChanges ∧
    changeB.field = "messages" ∧
    hasNonEmptyMessages changeB = true ∧
    registerAll [0] "message" = [0] ∧
    countEvent (0, changeB.value.getD emptyValue)
      ((processWebhookPayload (registerAll [0]) okRejectAll
        payloadTwoChanges).1) = 0 := by
  decide

/-! ### Configuration loading from the environment -/

/-- An environment in which all five required variables are present but the
access token is the empty string (set, yet JS-falsy). -/
def envTokenEmpty : Env :=
  [("WHATSAPP_BUSINESS_ACCOUNT_ID", "b"),
   ("WHATSAPP_PHONE_NUMBER_ID", "p"),
   ("WHATSAPP_API_VERSION", "v15.0"),
   ("WHATSAPP_ACCESS_TOKEN", ""),
   ("WHATSAPP_WEBHOOK_VERIFICATION_TOKEN", "w")]

/-- An environment with all five required variables set and nonempty, no
base URL, and a custom default language code. -/
def envComplete : Env :=
  [("WHATSAPP_BUSINESS_ACCOUNT_ID", "b"),
   ("WHATSAPP_PHONE_NUMBER_ID", "p"),
   ("WHATSAPP_API_VERSION", "v15.0"),
   ("WHATSAPP_ACCESS_TOKEN", "t"),
   ("WHATSAPP_WEBHOOK_VERIFICATION_TOKEN", "w"),
   ("WHATSAPP_DEFAULT_LANGUAGE_CODE", "pt_BR")]

/-- Counterexample to C8 as stated: every required variable is set in
`envTokenEmpty` (none is unset), yet `fromEnv` throws, because the check
`!process.env[varName]` also fires on an empty-string value. -/
theorem fromEnv_empty_string_counterexample :
    (requiredVars.all (fun v => (getField envTokenEmpty v).isSome)) = true ∧
    fromEnv envTokenEmpty =
      Except.error
        "Missing required environment variables: WHATSAPP_ACCESS_TOKEN" := by
  constructor
  · decide
  · rfl

/-- C8 (amended): `fromEnv` throws, naming the offending variables, iff at
least one of the five required variables is unset or set to the empty
string (JS-falsy); when all five carry nonempty values it returns the
config, `apiBaseUrl` and `defaultLanguageCode` falling back to their
defaults exactly when the corresponding variable is unset or empty. -/
theorem fromEnv_spec (e : Env) :
    ((∃ msg, fromEnv e = Except.error msg) ↔
      ∃ v ∈ requiredVars, truthy (getField e v) = false) ∧
    (∀ msg, fromEnv e = Except.error msg →
      msg = "Missing required environment variables: " ++
        String.intercalate ", "
          (requiredVars.filter (fun v => !truthy (getField e v)))) ∧
    ((∀ v ∈ requiredVars, truthy (getField e v) = true) →
      fromEnv e = Except.ok
        { businessAccountId :=
            (getField e "WHATSAPP_BUSINESS_ACCOUNT_ID").getD ""
          phoneNumberId := (getField e "WHATSAPP_PHONE_NUMBER_ID").getD ""
          apiVersion := (getField e "WHATSAPP_API_VERSION").getD ""
          accessToken := (getField e "WHATSAPP_ACCESS_TOKEN").getD ""
          webhookVerificationToken :=
            (getField e "WHATSAPP_WEBHOOK_VERIFICATION_TOKEN").getD ""
          apiBaseUrl :=
            envOr e "WHATSAPP_API_BASE_URL" "https://graph.facebook.com"
          defaultLanguageCode :=
            envOr e "WHATSAPP_DEFAULT_LANGUAGE_CODE" "en_US" }) := by
  by_cases hm : (requiredVars.filter (fun v => !truthy (getField e v))) = []
  · have hfe : fromEnv e = Except.ok
        { businessAccountId :=
            (getField e "WHATSAPP_BUSINESS_ACCOUNT_ID").getD ""
          phoneNumberId := (getField e "WHATSAPP_PHONE_NUMBER_ID").getD ""
          apiVersion := (getField e "WHATSAPP_API_VERSION").getD ""
          accessToken := (getField e "WHATSAPP_ACCESS_TOKEN").getD ""
          webhookVerificationToken :=
            (getField e "WHATSAPP_WEBHOOK_VERIFICATION_TOKEN").getD ""
          apiBaseUrl :=
            envOr e "WHATSAPP_API_BASE_URL" "https://graph.facebook.com"
          defaultLanguageCode :=
            envOr e "WHATSAPP_DEFAULT_LANGUAGE_CODE" "en_US" } := by
      simp [fromEnv, hm]
    refine ⟨?_, ?_, ?_⟩
    · constructor
      · rintro ⟨msg, h⟩
        rw [hfe] at h
        exact Except.noConfusion h
      · rintro ⟨v, hv, hfalse⟩
        exfalso
        have hmem : v ∈ requiredVars.filter (fun v => !truthy (getField e v)) :=
          List.mem_filter.mpr ⟨hv, by rw [hfalse]; rfl⟩
        rw [hm] at hmem
        cases hmem
    · intro msg h
      rw [hfe] at h
      exact Except.noConfusion h
    · intro _
      exact hfe
  · have hne : ¬((requiredVars.filter
        (fun v => !truthy (getField e v))).isEmpty = true) := by
      simp [List.isEmpty_iff, hm]
    have hfe : fromEnv e = Except.error
        ("Missing required environment variables: " ++
          String.intercalate ", "
            (requiredVars.filter (fun v => !truthy (getField e v)))) := by
      simp [fromEnv, hne]
    refine ⟨?_, ?_, ?_⟩
    · constructor
      · intro _
        obtain ⟨v, hv⟩ := List.exists_mem_of_ne_nil _ hm
        have h2 := List.mem_filter.mp hv
        exact ⟨v, h2.1, by simpa using h2.2⟩
      · intro _
        exact ⟨_, hfe⟩
    · intro msg h
      rw [hfe] at h
      injection h with h1
      exact h1.symm
    · intro hall
      exfalso
      obtain ⟨v, hv⟩ := List.exists_mem_of_ne_nil _ hm
      have h2 := List.mem_filter.mp hv
      have hpred := h2.2
      rw [hall v h2.1] at hpred
      simp at hpred

/-- Witness for the amended C8: a complete environment yields the config
with the default base URL and the env-provided language code. -/
theorem fromEnv_spec_witness :
    (∀ v ∈ requiredVars, truthy (getField envComplete v) = true) ∧
    fromEnv envComplete = Except.ok
      { businessAccountId :=
          (getField envComplete "WHATSAPP_BUSINESS_ACCOUNT_ID").getD ""
        phoneNumberId := (getField envComplete "WHATSAPP_PHONE_NUMBER_ID").getD ""
        apiVersion := (getField envComplete "WHATSAPP_API_VERSION").getD ""
        accessToken := (getField envComplete "WHATSAPP_ACCESS_TOKEN").getD ""
        webhookVerificationToken :=
          (getField envComplete "WHATSAPP_WEBHOOK_VERIFICATION_TOKEN").getD ""
        apiBaseUrl :=
          envOr envComplete "WHATSAPP_API_BASE_URL" "https://graph.facebook.com"
        defaultLanguageCode :=
          envOr envComplete "WHATSAPP_DEFAULT_LANGUAGE_CODE" "en_US" } :=
  ⟨by decide, (fromEnv_spec envComplete).2.2 (by decide)⟩
